import Mathlib

/-!
# Simulated annealing loop (notebook cell 16), shallow embedding

The source is the annealing loop of `Simulated Annealing.ipynb`:

```
x0_temp = x0 ; x0_best = x0
f0_temp = rosenbrock(x0_temp[0], x0_temp[1])
f0_best = rosenbrock(x0_best[0], x0_best[1])
count = 0 ; kmax = 1000
for k in range(kmax):
    x1 = x0_temp + np.random.randn()
    f1 = rosenbrock(x1[0], x1[1])
    T = (kmax - k) / kmax
    if f1 < f0_temp:
        x0_temp = x1 ; f0_temp = f1
    elif np.exp(-(f1 - f0_temp)/T) > np.random.rand():
        x0_temp = x1 ; f0_temp = f1 ; count += 1
    else:
        continue
    if f0_temp < f0_best:
        x0_best = x0_temp ; f0_best = f0_temp
```

We embed the loop over an arbitrary cost function `f : Point → ℝ` (the
notebook instantiates it with the Rosenbrock function applied to the two
coordinates) and an explicit random stream `s : ℕ → ℝ` standing for the
sequence of values produced by the module-level numpy generator, consumed
one index at a time: `np.random.randn()` takes the value at the current
cursor and advances it by one, and so does `np.random.rand()` when it is
evaluated (Python short-circuits the `elif`, so the uniform draw is taken
only when `f1 < f0_temp` fails).  The search state carries the cursor so
that draw consumption is part of the semantics.
-/

open scoped Classical

/-- A candidate solution: the notebook works with 2-D numpy vectors. -/
abbrev Point : Type := ℝ × ℝ

/-- The Rosenbrock function of the notebook,
`rosenbrock(x, y, a=1, B=100) = (a-x)**2 + B*((y-x**2))**2` with the
default parameters `a = 1`, `B = 100` inlined. -/
noncomputable def rosenbrock (x y : ℝ) : ℝ := (1 - x) ^ 2 + 100 * (y - x ^ 2) ^ 2

/-- The cost function actually used by the loop: `rosenbrock(p[0], p[1])`. -/
noncomputable def rosenbrockCost (p : Point) : ℝ := rosenbrock p.1 p.2

/-- Search state of the loop: the notebook's variables `x0_temp`, `f0_temp`,
`x0_best`, `f0_best`, `count`, plus the cursor `idx` into the random
stream (how many scalars the module-level generator has produced so far). -/
structure SAState where
  x0_temp : Point
  f0_temp : ℝ
  x0_best : Point
  f0_best : ℝ
  count : ℕ
  idx : ℕ

/-- Initialization: `x0_temp = x0_best = x0`,
`f0_temp = f0_best = f(x0)`, `count = 0`, no draws consumed yet. -/
noncomputable def initState (f : Point → ℝ) (x0 : Point) : SAState :=
  { x0_temp := x0, f0_temp := f x0, x0_best := x0, f0_best := f x0
    count := 0, idx := 0 }

/-- `x1 = x0_temp + np.random.randn()`: adding the scalar `g` to a 2-D numpy
vector broadcasts it, adding the same scalar to both coordinates. -/
noncomputable def nearby (p : Point) (g : ℝ) : Point := (p.1 + g, p.2 + g)

/-- The candidate of one iteration: `nearby` applied to the current point and
the single `randn()` scalar, i.e. the stream value at the current cursor. -/
noncomputable def candidateOf (s : ℕ → ℝ) (st : SAState) : Point := nearby st.x0_temp (s st.idx)

/-- The temperature of iteration `k`: `T = (kmax - k) / kmax`
(float division of Python ints). -/
noncomputable def temperature_schedule (k kmax : ℕ) : ℝ := ((kmax : ℝ) - (k : ℝ)) / (kmax : ℝ)

/-- The trailing best-tracking of the loop body:
`if f0_temp < f0_best: x0_best = x0_temp; f0_best = f0_temp`.
It runs only on the two accepting paths (the `else: continue` skips it). -/
noncomputable def bestCheck (st : SAState) : SAState :=
  if st.f0_temp < st.f0_best then
    { st with x0_best := st.x0_temp, f0_best := st.f0_temp }
  else st

/-- One iteration of the loop at index `k`.  `f1 = f x1` with
`x1 = candidateOf s st`; the improving branch consumes only the `randn()`
draw, the other two branches also consume the `rand()` draw evaluated in
the `elif` condition (`s (st.idx + 1)`). -/
noncomputable def stepAt (f : Point → ℝ) (s : ℕ → ℝ) (kmax k : ℕ)
    (st : SAState) : SAState :=
  if f (candidateOf s st) < st.f0_temp then
    bestCheck { st with x0_temp := candidateOf s st
                        f0_temp := f (candidateOf s st)
                        idx := st.idx + 1 }
  else if Real.exp (-(f (candidateOf s st) - st.f0_temp) /
      temperature_schedule k kmax) > s (st.idx + 1) then
    bestCheck { st with x0_temp := candidateOf s st
                        f0_temp := f (candidateOf s st)
                        count := st.count + 1
                        idx := st.idx + 2 }
  else
    { st with idx := st.idx + 2 }

/-- The state after the first `n` iterations (`k = 0, …, n-1`) of a run with
iteration budget `kmax`, starting from `initState f x0`. -/
noncomputable def run (f : Point → ℝ) (x0 : Point) (s : ℕ → ℝ) (kmax : ℕ) :
    ℕ → SAState
  | 0 => initState f x0
  | n + 1 => stepAt f s kmax n (run f x0 s kmax n)

/-- A complete run: all `kmax` iterations of `for k in range(kmax)`. -/
noncomputable def runSA (f : Point → ℝ) (x0 : Point) (s : ℕ → ℝ)
    (kmax : ℕ) : SAState :=
  run f x0 s kmax kmax

/-- The acceptance condition of iteration `k` in state `st`:
`f1 < f0_temp or np.exp(-(f1 - f0_temp)/T) > np.random.rand()`. -/
def acceptCond (f : Point → ℝ) (s : ℕ → ℝ) (kmax k : ℕ) (st : SAState) : Prop :=
  f (candidateOf s st) < st.f0_temp ∨
    Real.exp (-(f (candidateOf s st) - st.f0_temp) /
      temperature_schedule k kmax) > s (st.idx + 1)

/-! Concrete ingredients used by witnesses and counterexamples. -/

/-- Projection on the first coordinate, a concrete cost function. -/
noncomputable def fFst (p : Point) : ℝ := p.1

/-- The all-zero random stream. -/
noncomputable def sZero : ℕ → ℝ := fun _ => 0

/-- The all-one random stream. -/
noncomputable def sOne : ℕ → ℝ := fun _ => 1

/-- The stream `1, 2, 3, …` whose successive values are pairwise distinct. -/
noncomputable def sLin : ℕ → ℝ := fun n => (n : ℝ) + 1

/-- The stream `1, 1/2, 1/2, …`: a unit first draw, then draws of `1/2`. -/
noncomputable def sHalf : ℕ → ℝ := fun n => if n = 0 then 1 else 1 / 2

/-- The spec's reading of the default neighbor function: one independent
standard-normal sample PER COORDINATE, i.e. two sequential draws from the
stream starting at cursor `i`, the first added to the first coordinate and
the second to the second.  Stated from the spec's words, for comparison
with the code's `nearby`. -/
noncomputable def nearbyPerCoordinate (p : Point) (s : ℕ → ℝ) (i : ℕ) : Point :=
  (p.1 + s i, p.2 + s (i + 1))

/-- The cost bookkeeping invariant: the stored cost of the current point and
of the best point agree with the cost function. -/
def CostInv (f : Point → ℝ) (st : SAState) : Prop :=
  st.f0_temp = f st.x0_temp ∧ st.f0_best = f st.x0_best

/-- Membership in the diagonal line through `x0` with direction `(1, 1)`:
the set of points `x0 + t * (1, 1)` for real `t`. -/
def onLine (x0 p : Point) : Prop := ∃ t : ℝ, p = (x0.1 + t, x0.2 + t)

/-- The content of the spec's denial of the bound
`best_cost ≤ cost_function(initial_point)`: some run returns a best cost
strictly above the initial cost.  Stated from the spec's words, to be
refuted against the code. -/
def bestExceedsInitialSometimes : Prop :=
  ∃ (f : Point → ℝ) (x0 : Point) (s : ℕ → ℝ) (kmax : ℕ),
    f x0 < (runSA f x0 s kmax).f0_best

/-! ## Basic lemmas about `bestCheck` and `stepAt` -/

theorem bestCheck_x0_temp (st : SAState) : (bestCheck st).x0_temp = st.x0_temp := by
  unfold bestCheck; split <;> rfl

theorem bestCheck_f0_temp (st : SAState) : (bestCheck st).f0_temp = st.f0_temp := by
  unfold bestCheck; split <;> rfl

theorem bestCheck_idx (st : SAState) : (bestCheck st).idx = st.idx := by
  unfold bestCheck; split <;> rfl

theorem bestCheck_count (st : SAState) : (bestCheck st).count = st.count := by
  unfold bestCheck; split <;> rfl

theorem bestCheck_f0_best_le (st : SAState) : (bestCheck st).f0_best ≤ st.f0_best := by
  unfold bestCheck; split
  · exact le_of_lt (by assumption)
  · exact le_refl _

theorem f0_best_stepAt_le (f : Point → ℝ) (s : ℕ → ℝ) (kmax k : ℕ) (st : SAState) :
    (stepAt f s kmax k st).f0_best ≤ st.f0_best := by
  unfold stepAt
  split
  · exact bestCheck_f0_best_le _
  · split
    · exact bestCheck_f0_best_le _
    · exact le_refl _

/-! ## Claim theorems -/

/-- Claim C1: at every iteration `k` in `[0, kmax)`, the candidate is
accepted — `x0_temp` and `f0_temp` replaced by the candidate and its cost —
exactly when `f1 < f0_temp` or
`exp(-(f1 - f0_temp) / T) > rand-draw`, with `T = temperature_schedule k kmax`;
otherwise both are kept unchanged. -/
theorem C1_accept_iff (f : Point → ℝ) (s : ℕ → ℝ) (kmax k : ℕ) (st : SAState)
    (_hk : k < kmax) :
    ((stepAt f s kmax k st).x0_temp, (stepAt f s kmax k st).f0_temp) =
      if acceptCond f s kmax k st then
        (candidateOf s st, f (candidateOf s st))
      else
        (st.x0_temp, st.f0_temp) := by
  unfold stepAt acceptCond
  by_cases h1 : f (candidateOf s st) < st.f0_temp
  · rw [if_pos h1, if_pos (Or.inl h1)]
    simp [bestCheck_x0_temp, bestCheck_f0_temp]
  · by_cases h2 : Real.exp (-(f (candidateOf s st) - st.f0_temp) /
        temperature_schedule k kmax) > s (st.idx + 1)
    · rw [if_neg h1, if_pos h2, if_pos (Or.inr h2)]
      simp [bestCheck_x0_temp, bestCheck_f0_temp]
    · rw [if_neg h1, if_neg h2, if_neg (not_or.mpr ⟨h1, h2⟩)]

/-- Witness for C1 at `k = 0`, `kmax = 1`, the first-coordinate cost,
the all-zero stream, and the state initialized at the origin. -/
theorem C1_accept_iff_witness :
    0 < 1 ∧
    ((stepAt fFst sZero 1 0 (initState fFst (0, 0))).x0_temp,
      (stepAt fFst sZero 1 0 (initState fFst (0, 0))).f0_temp) =
      if acceptCond fFst sZero 1 0 (initState fFst (0, 0)) then
        (candidateOf sZero (initState fFst (0, 0)),
          fFst (candidateOf sZero (initState fFst (0, 0))))
      else
        ((initState fFst (0, 0)).x0_temp, (initState fFst (0, 0)).f0_temp) :=
  ⟨by decide, C1_accept_iff fFst sZero 1 0 (initState fFst (0, 0)) (by decide)⟩

/-- Claim C4 (amended): with `max_iterations = 0` the loop body never
executes; the run returns normally with the initial best point and cost and
with zero random draws consumed.  No InvalidArgument-style guard exists. -/
theorem C4_zero_iterations_returns_initial (f : Point → ℝ) (x0 : Point)
    (s : ℕ → ℝ) :
    runSA f x0 s 0 = initState f x0 ∧
      (runSA f x0 s 0).x0_best = x0 ∧
      (runSA f x0 s 0).f0_best = f x0 ∧
      (runSA f x0 s 0).idx = 0 :=
  ⟨rfl, rfl, rfl, rfl⟩

/-- Counterexample to Claim C4 as stated: at the concrete input
`max_iterations = 0` (first-coordinate cost, origin, all-zero stream) the
run does not fail — it returns the initial state, with best cost `0`. -/
theorem C4_counterexample :
    runSA fFst (0, 0) sZero 0 = initState fFst (0, 0) ∧
      (runSA fFst (0, 0) sZero 0).f0_best = 0 :=
  ⟨rfl, rfl⟩

/-- Counterexample to Claim C5 as stated: on the stream `1, 2, 3, …` and the
state initialized at the origin, the code's candidate `(1, 1)` differs from
the per-coordinate candidate `(1, 2)` built from two independent draws. -/
theorem C5_counterexample :
    candidateOf sLin (initState fFst (0, 0)) ≠
      nearbyPerCoordinate (0, 0) sLin 0 := by
  unfold candidateOf nearby nearbyPerCoordinate initState sLin
  intro h
  have h2 := congrArg Prod.snd h
  push_cast at h2
  norm_num at h2

/-- Claim C5 (amended): the default neighbor draws ONE standard-normal
scalar (`np.random.randn()`, the stream value at the cursor) and numpy
broadcast adds that same scalar to both coordinates of the current point,
so both coordinates of the candidate move by the same amount. -/
theorem C5_single_draw_broadcast (s : ℕ → ℝ) (st : SAState) :
    candidateOf s st = (st.x0_temp.1 + s st.idx, st.x0_temp.2 + s st.idx) ∧
      (candidateOf s st).1 - st.x0_temp.1 = (candidateOf s st).2 - st.x0_temp.2 := by
  refine ⟨rfl, ?_⟩
  unfold candidateOf nearby
  ring

/-- Claim C6: with the default schedule `T = (kmax - k) / kmax` and a
positive `kmax`, the temperature is strictly positive for every iteration
index `k < kmax` actually evaluated, so the acceptance exponent never
divides by zero. -/
theorem C6_temperature_pos (kmax k : ℕ) (hpos : 0 < kmax) (hk : k < kmax) :
    0 < temperature_schedule k kmax := by
  unfold temperature_schedule
  have h1 : (k : ℝ) < (kmax : ℝ) := by exact_mod_cast hk
  have h2 : (0 : ℝ) < (kmax : ℝ) := by exact_mod_cast hpos
  exact div_pos (sub_pos.mpr h1) h2

/-- Witness for C6 at `kmax = 1`, `k = 0`. -/
theorem C6_temperature_pos_witness :
    (0 < 1 ∧ 0 < 1) ∧ 0 < temperature_schedule 0 1 :=
  ⟨⟨Nat.one_pos, Nat.one_pos⟩, C6_temperature_pos 1 0 Nat.one_pos Nat.one_pos⟩

/-! ## Structural helper lemmas -/

theorem bestCheck_cases (st : SAState) :
    ((bestCheck st).x0_best = st.x0_best ∧ (bestCheck st).f0_best = st.f0_best) ∨
      (st.f0_temp < st.f0_best ∧ (bestCheck st).x0_best = st.x0_temp ∧
        (bestCheck st).f0_best = st.f0_temp) := by
  unfold bestCheck
  split
  · right; exact ⟨by assumption, rfl, rfl⟩
  · left; exact ⟨rfl, rfl⟩

/-- Dissection of one iteration into its three paths: improving accept,
Metropolis accept, reject. -/
theorem stepAt_eq_cases (f : Point → ℝ) (s : ℕ → ℝ) (kmax k : ℕ) (st : SAState) :
    (f (candidateOf s st) < st.f0_temp ∧
      stepAt f s kmax k st =
        bestCheck { st with x0_temp := candidateOf s st
                            f0_temp := f (candidateOf s st)
                            idx := st.idx + 1 }) ∨
    (¬ f (candidateOf s st) < st.f0_temp ∧
      Real.exp (-(f (candidateOf s st) - st.f0_temp) /
        temperature_schedule k kmax) > s (st.idx + 1) ∧
      stepAt f s kmax k st =
        bestCheck { st with x0_temp := candidateOf s st
                            f0_temp := f (candidateOf s st)
                            count := st.count + 1
                            idx := st.idx + 2 }) ∨
    (¬ acceptCond f s kmax k st ∧
      stepAt f s kmax k st = { st with idx := st.idx + 2 }) := by
  by_cases h1 : f (candidateOf s st) < st.f0_temp
  · exact Or.inl ⟨h1, by unfold stepAt; rw [if_pos h1]⟩
  · by_cases h2 : Real.exp (-(f (candidateOf s st) - st.f0_temp) /
        temperature_schedule k kmax) > s (st.idx + 1)
    · exact Or.inr (Or.inl ⟨h1, h2, by unfold stepAt; rw [if_neg h1, if_pos h2]⟩)
    · exact Or.inr (Or.inr ⟨not_or.mpr ⟨h1, h2⟩,
        by unfold stepAt; rw [if_neg h1, if_neg h2]⟩)

theorem stepAt_x0_temp_cases (f : Point → ℝ) (s : ℕ → ℝ) (kmax k : ℕ)
    (st : SAState) :
    (stepAt f s kmax k st).x0_temp = st.x0_temp ∨
      (stepAt f s kmax k st).x0_temp = candidateOf s st := by
  rcases stepAt_eq_cases f s kmax k st with ⟨_, h⟩ | ⟨_, _, h⟩ | ⟨_, h⟩
  · right; rw [h, bestCheck_x0_temp]
  · right; rw [h, bestCheck_x0_temp]
  · left; rw [h]

theorem bestCheck_x0_best_mem (st : SAState) :
    (bestCheck st).x0_best = st.x0_best ∨ (bestCheck st).x0_best = st.x0_temp := by
  unfold bestCheck
  split
  · right; rfl
  · left; rfl

theorem stepAt_x0_best_cases (f : Point → ℝ) (s : ℕ → ℝ) (kmax k : ℕ)
    (st : SAState) :
    (stepAt f s kmax k st).x0_best = st.x0_best ∨
      (stepAt f s kmax k st).x0_best = candidateOf s st := by
  rcases stepAt_eq_cases f s kmax k st with ⟨_, h⟩ | ⟨_, _, h⟩ | ⟨_, h⟩ <;> rw [h]
  · exact bestCheck_x0_best_mem _
  · exact bestCheck_x0_best_mem _
  · left; rfl

/-- Draw consumption of one iteration: one scalar on the improving path,
two scalars (the `randn()` and the `rand()` evaluated in the `elif`
condition) on the other two paths. -/
theorem stepAt_idx (f : Point → ℝ) (s : ℕ → ℝ) (kmax k : ℕ) (st : SAState) :
    (stepAt f s kmax k st).idx =
      st.idx + (if f (candidateOf s st) < st.f0_temp then 1 else 2) := by
  by_cases h1 : f (candidateOf s st) < st.f0_temp
  · rw [if_pos h1]
    unfold stepAt
    rw [if_pos h1, bestCheck_idx]
  · rw [if_neg h1]
    unfold stepAt
    rw [if_neg h1]
    split
    · rw [bestCheck_idx]
    · rfl

theorem stepAt_idx_lt (f : Point → ℝ) (s : ℕ → ℝ) (kmax k : ℕ) (st : SAState) :
    st.idx < (stepAt f s kmax k st).idx := by
  rw [stepAt_idx]
  split <;> omega

/-! ## Run-level helper lemmas -/

theorem run_f0_best_succ_le (f : Point → ℝ) (x0 : Point) (s : ℕ → ℝ)
    (kmax n : ℕ) :
    (run f x0 s kmax (n + 1)).f0_best ≤ (run f x0 s kmax n).f0_best :=
  f0_best_stepAt_le f s kmax n (run f x0 s kmax n)

theorem run_f0_best_antitone (f : Point → ℝ) (x0 : Point) (s : ℕ → ℝ)
    (kmax : ℕ) {j k : ℕ} (hjk : j ≤ k) :
    (run f x0 s kmax k).f0_best ≤ (run f x0 s kmax j).f0_best := by
  induction k with
  | zero => cases Nat.le_zero.mp hjk; exact le_refl _
  | succ m ih =>
    rcases Nat.lt_or_ge j (m + 1) with hlt | hge
    · exact le_trans (run_f0_best_succ_le f x0 s kmax m)
        (ih (Nat.lt_succ_iff.mp hlt))
    · have : j = m + 1 := le_antisymm hjk hge
      subst this
      exact le_refl _

theorem run_f0_best_le_init (f : Point → ℝ) (x0 : Point) (s : ℕ → ℝ)
    (kmax n : ℕ) :
    (run f x0 s kmax n).f0_best ≤ f x0 :=
  run_f0_best_antitone f x0 s kmax (Nat.zero_le n)

/-! ## Cost bookkeeping invariant -/

theorem bestCheck_costInv (f : Point → ℝ) (st : SAState) (h : CostInv f st) :
    CostInv f (bestCheck st) := by
  obtain ⟨h1, h2⟩ := h
  unfold CostInv bestCheck
  split
  · exact ⟨h1, h1⟩
  · exact ⟨h1, h2⟩

theorem stepAt_costInv (f : Point → ℝ) (s : ℕ → ℝ) (kmax k : ℕ) (st : SAState)
    (h : CostInv f st) : CostInv f (stepAt f s kmax k st) := by
  rcases stepAt_eq_cases f s kmax k st with ⟨_, he⟩ | ⟨_, _, he⟩ | ⟨_, he⟩ <;> rw [he]
  · exact bestCheck_costInv f _ ⟨rfl, h.2⟩
  · exact bestCheck_costInv f _ ⟨rfl, h.2⟩
  · exact ⟨h.1, h.2⟩

theorem run_costInv (f : Point → ℝ) (x0 : Point) (s : ℕ → ℝ) (kmax n : ℕ) :
    CostInv f (run f x0 s kmax n) := by
  induction n with
  | zero => exact ⟨rfl, rfl⟩
  | succ m ih => exact stepAt_costInv f s kmax m _ ih

/-- Claim C8: after initialization, `f0_best = f x0_best` always holds (and
so does `f0_temp = f x0_temp`): the updates of each pair are paired. -/
theorem C8_best_cost_consistent (f : Point → ℝ) (x0 : Point) (s : ℕ → ℝ)
    (kmax n : ℕ) :
    (run f x0 s kmax n).f0_best = f (run f x0 s kmax n).x0_best ∧
      (run f x0 s kmax n).f0_temp = f (run f x0 s kmax n).x0_temp :=
  ⟨(run_costInv f x0 s kmax n).2, (run_costInv f x0 s kmax n).1⟩

/-! ## Best-tracking -/

theorem stepAt_best_cases (f : Point → ℝ) (s : ℕ → ℝ) (kmax k : ℕ)
    (st : SAState) :
    ((stepAt f s kmax k st).x0_best = st.x0_best ∧
      (stepAt f s kmax k st).f0_best = st.f0_best) ∨
    (acceptCond f s kmax k st ∧
      (stepAt f s kmax k st).f0_temp < st.f0_best) := by
  unfold stepAt
  by_cases h1 : f (candidateOf s st) < st.f0_temp
  · rw [if_pos h1]
    unfold bestCheck
    split
    · rename_i hlt
      right
      exact ⟨Or.inl h1, hlt⟩
    · left
      exact ⟨rfl, rfl⟩
  · rw [if_neg h1]
    by_cases h2 : Real.exp (-(f (candidateOf s st) - st.f0_temp) /
        temperature_schedule k kmax) > s (st.idx + 1)
    · rw [if_pos h2]
      unfold bestCheck
      split
      · rename_i hlt
        right
        exact ⟨Or.inr h2, hlt⟩
      · left
        exact ⟨rfl, rfl⟩
    · rw [if_neg h2]
      left
      exact ⟨rfl, rfl⟩

/-- Claim C2: along a run, `f0_best` is non-increasing in the iteration
index, and one iteration changes the best pair only when the move was
accepted and the new current cost is strictly below the old best cost. -/
theorem C2_best_monotone :
    (∀ (f : Point → ℝ) (x0 : Point) (s : ℕ → ℝ) (kmax j k : ℕ), j ≤ k →
      (run f x0 s kmax k).f0_best ≤ (run f x0 s kmax j).f0_best) ∧
    (∀ (f : Point → ℝ) (s : ℕ → ℝ) (kmax k : ℕ) (st : SAState),
      ((stepAt f s kmax k st).x0_best = st.x0_best ∧
        (stepAt f s kmax k st).f0_best = st.f0_best) ∨
      (acceptCond f s kmax k st ∧
        (stepAt f s kmax k st).f0_temp < st.f0_best)) :=
  ⟨fun f x0 s kmax _ _ hjk => run_f0_best_antitone f x0 s kmax hjk,
    stepAt_best_cases⟩

/-- Witness for C2 at `j = 0 ≤ k = 1` on concrete inputs. -/
theorem C2_best_monotone_witness :
    0 ≤ 1 ∧
      (run fFst (0, 0) sZero 1 1).f0_best ≤ (run fFst (0, 0) sZero 1 0).f0_best :=
  ⟨Nat.zero_le 1, C2_best_monotone.1 fFst (0, 0) sZero 1 0 1 (Nat.zero_le 1)⟩

/-- Counterexample to Claim C3 as stated: the claim denies the guarantee
`best_cost ≤ cost_function(initial_point)`, but no run returns a best cost
above the initial cost — `f0_best` starts at `f x0` and never increases. -/
theorem C3_counterexample : ¬ bestExceedsInitialSometimes := by
  rintro ⟨f, x0, s, kmax, h⟩
  exact absurd h (not_lt.mpr (run_f0_best_le_init f x0 s kmax kmax))

/-- Claim C3 (amended): `best_cost ≤ cost_function(initial_point)` IS
guaranteed at every iteration of every run; what is not guaranteed is
strict improvement — on a concrete run whose only move is rejected,
`f0_best` stays equal to the initial cost. -/
theorem C3_best_le_initial :
    (∀ (f : Point → ℝ) (x0 : Point) (s : ℕ → ℝ) (kmax n : ℕ),
      (run f x0 s kmax n).f0_best ≤ f x0) ∧
    (runSA fFst (0, 0) sOne 1).f0_best = fFst (0, 0) := by
  constructor
  · exact run_f0_best_le_init
  · have h1 : ¬ fFst (candidateOf sOne (initState fFst (0, 0))) <
        (initState fFst (0, 0)).f0_temp := by
      unfold candidateOf nearby initState fFst sOne
      norm_num
    have h2 : ¬ Real.exp (-(fFst (candidateOf sOne (initState fFst (0, 0))) -
        (initState fFst (0, 0)).f0_temp) / temperature_schedule 0 1) >
        sOne ((initState fFst (0, 0)).idx + 1) := by
      have harg : -(fFst (candidateOf sOne (initState fFst (0, 0))) -
          (initState fFst (0, 0)).f0_temp) / temperature_schedule 0 1 = -1 := by
        unfold candidateOf nearby initState fFst sOne temperature_schedule
        norm_num
      rw [harg]
      have hlt : Real.exp (-1) < 1 := Real.exp_lt_one_iff.mpr (by norm_num)
      exact not_lt.mpr hlt.le
    show (stepAt fFst sOne 1 0 (initState fFst (0, 0))).f0_best = fFst (0, 0)
    unfold stepAt
    rw [if_neg h1, if_neg h2]
    rfl

/-- Claim C7: when an iteration rejects the candidate, the whole search
state — current point and cost, best point and cost, and the acceptance
counter — is unchanged (only the stream cursor advances). -/
theorem C7_reject_frame (f : Point → ℝ) (s : ℕ → ℝ) (kmax k : ℕ)
    (st : SAState) (hrej : ¬ acceptCond f s kmax k st) :
    (stepAt f s kmax k st).x0_temp = st.x0_temp ∧
      (stepAt f s kmax k st).f0_temp = st.f0_temp ∧
      (stepAt f s kmax k st).x0_best = st.x0_best ∧
      (stepAt f s kmax k st).f0_best = st.f0_best ∧
      (stepAt f s kmax k st).count = st.count := by
  have h1 : ¬ f (candidateOf s st) < st.f0_temp := fun h => hrej (Or.inl h)
  have h2 : ¬ Real.exp (-(f (candidateOf s st) - st.f0_temp) /
      temperature_schedule k kmax) > s (st.idx + 1) := fun h => hrej (Or.inr h)
  unfold stepAt
  rw [if_neg h1, if_neg h2]
  exact ⟨rfl, rfl, rfl, rfl, rfl⟩

/-- Witness for C7: from the state initialized at `(1, 0)` under the
first-coordinate cost, with draws `1` then `1/2`, the candidate `(2, 1)`
worsens the cost and `exp(-1) ≤ 1/2`, so the iteration rejects and the
four state fields and the counter are unchanged. -/
theorem C7_reject_frame_witness :
    (¬ acceptCond fFst sHalf 1 0 (initState fFst (1, 0))) ∧
      ((stepAt fFst sHalf 1 0 (initState fFst (1, 0))).x0_temp =
          (initState fFst (1, 0)).x0_temp ∧
        (stepAt fFst sHalf 1 0 (initState fFst (1, 0))).f0_temp =
          (initState fFst (1, 0)).f0_temp ∧
        (stepAt fFst sHalf 1 0 (initState fFst (1, 0))).x0_best =
          (initState fFst (1, 0)).x0_best ∧
        (stepAt fFst sHalf 1 0 (initState fFst (1, 0))).f0_best =
          (initState fFst (1, 0)).f0_best ∧
        (stepAt fFst sHalf 1 0 (initState fFst (1, 0))).count =
          (initState fFst (1, 0)).count) := by
  have hexp : Real.exp (-1) ≤ 1 / 2 := by
    rw [Real.exp_neg]
    have h2 : (2 : ℝ) ≤ Real.exp 1 := by
      have := Real.add_one_le_exp (1 : ℝ)
      linarith
    have hinv : (Real.exp 1)⁻¹ ≤ (2 : ℝ)⁻¹ :=
      inv_anti₀ (by norm_num) h2
    calc (Real.exp 1)⁻¹ ≤ (2 : ℝ)⁻¹ := hinv
      _ = 1 / 2 := by norm_num
  have hrej : ¬ acceptCond fFst sHalf 1 0 (initState fFst (1, 0)) := by
    intro hacc
    have hc : candidateOf sHalf (initState fFst (1, 0)) = ((2 : ℝ), (1 : ℝ)) := by
      unfold candidateOf nearby initState sHalf
      norm_num
    rcases hacc with h | h
    · rw [hc] at h
      unfold fFst initState at h
      norm_num at h
    · rw [hc] at h
      unfold fFst initState sHalf temperature_schedule at h
      norm_num at h
      linarith
  exact ⟨hrej, C7_reject_frame fFst sHalf 1 0 (initState fFst (1, 0)) hrej⟩

/-! ## The diagonal-line invariant -/

theorem onLine_refl (x0 : Point) : onLine x0 x0 :=
  ⟨0, by obtain ⟨a, b⟩ := x0; simp⟩

theorem onLine_nearby (x0 p : Point) (g : ℝ) (h : onLine x0 p) :
    onLine x0 (nearby p g) := by
  obtain ⟨t, ht⟩ := h
  refine ⟨t + g, ?_⟩
  rw [ht]
  unfold nearby
  simp only [Prod.mk.injEq]
  constructor <;> ring

theorem run_onLine (f : Point → ℝ) (x0 : Point) (s : ℕ → ℝ) (kmax n : ℕ) :
    onLine x0 (run f x0 s kmax n).x0_temp ∧
      onLine x0 (run f x0 s kmax n).x0_best := by
  induction n with
  | zero => exact ⟨onLine_refl x0, onLine_refl x0⟩
  | succ m ih =>
    constructor
    · show onLine x0 (stepAt f s kmax m (run f x0 s kmax m)).x0_temp
      rcases stepAt_x0_temp_cases f s kmax m (run f x0 s kmax m) with h | h <;> rw [h]
      · exact ih.1
      · exact onLine_nearby x0 _ _ ih.1
    · show onLine x0 (stepAt f s kmax m (run f x0 s kmax m)).x0_best
      rcases stepAt_x0_best_cases f s kmax m (run f x0 s kmax m) with h | h <;> rw [h]
      · exact ih.2
      · exact onLine_nearby x0 _ _ ih.1

/-- Claim C10: every point the search visits — the current point, the best
point, and the candidate generated next — lies on the diagonal line through
the initial point with direction `(1, 1)`, because the scalar `randn()`
draw is broadcast-added to both coordinates. -/
theorem C10_diagonal_line (f : Point → ℝ) (x0 : Point) (s : ℕ → ℝ)
    (kmax n : ℕ) :
    onLine x0 (run f x0 s kmax n).x0_temp ∧
      onLine x0 (run f x0 s kmax n).x0_best ∧
      onLine x0 (candidateOf s (run f x0 s kmax n)) :=
  ⟨(run_onLine f x0 s kmax n).1, (run_onLine f x0 s kmax n).2,
    onLine_nearby x0 _ _ (run_onLine f x0 s kmax n).1⟩

/-! ## Determinism and sequential draw consumption -/

theorem stepAt_congr (f : Point → ℝ) (s1 s2 : ℕ → ℝ) (kmax k : ℕ)
    (st : SAState) (h0 : s1 st.idx = s2 st.idx)
    (h1 : ¬ f (candidateOf s1 st) < st.f0_temp →
      s1 (st.idx + 1) = s2 (st.idx + 1)) :
    stepAt f s1 kmax k st = stepAt f s2 kmax k st := by
  have hcand : candidateOf s2 st = candidateOf s1 st := by
    unfold candidateOf
    rw [h0]
  unfold stepAt
  rw [hcand]
  by_cases hc : f (candidateOf s1 st) < st.f0_temp
  · rw [if_pos hc, if_pos hc]
  · rw [if_neg hc, if_neg hc, h1 hc]

theorem run_agree (f : Point → ℝ) (x0 : Point) (kmax : ℕ) (s1 s2 : ℕ → ℝ) :
    ∀ n, (∀ i, i < (run f x0 s1 kmax n).idx → s1 i = s2 i) →
      run f x0 s1 kmax n = run f x0 s2 kmax n := by
  intro n
  induction n with
  | zero => intro _; rfl
  | succ m ih =>
    intro h
    have hmono : (run f x0 s1 kmax m).idx < (run f x0 s1 kmax (m + 1)).idx :=
      stepAt_idx_lt f s1 kmax m (run f x0 s1 kmax m)
    have heq : run f x0 s1 kmax m = run f x0 s2 kmax m :=
      ih fun i hi => h i (lt_trans hi hmono)
    show stepAt f s1 kmax m (run f x0 s1 kmax m) =
      stepAt f s2 kmax m (run f x0 s2 kmax m)
    rw [← heq]
    apply stepAt_congr
    · exact h _ hmono
    · intro hnc
      apply h
      have hidx : (run f x0 s1 kmax (m + 1)).idx =
          (run f x0 s1 kmax m).idx + 2 := by
        show (stepAt f s1 kmax m (run f x0 s1 kmax m)).idx = _
        rw [stepAt_idx, if_neg hnc]
      omega

/-- Claim C9: the run is a deterministic function of its inputs, and random
draws are consumed strictly sequentially — each iteration advances the
cursor by one for the neighbor-noise draw plus one more for the acceptance
draw exactly when the candidate is not strictly improving; consequently two
runs whose streams agree on the consumed prefix produce identical final
states (in particular, identical `(x0_best, f0_best)`). -/
theorem C9_deterministic_replay :
    (∀ (f : Point → ℝ) (s : ℕ → ℝ) (kmax k : ℕ) (st : SAState),
      (stepAt f s kmax k st).idx =
        st.idx + (if f (candidateOf s st) < st.f0_temp then 1 else 2)) ∧
    (∀ (f : Point → ℝ) (x0 : Point) (kmax : ℕ) (s1 s2 : ℕ → ℝ),
      (∀ i, i < (runSA f x0 s1 kmax).idx → s1 i = s2 i) →
      runSA f x0 s1 kmax = runSA f x0 s2 kmax) :=
  ⟨stepAt_idx, fun f x0 kmax s1 s2 h => run_agree f x0 kmax s1 s2 kmax h⟩

/-- Witness for C9: at `kmax = 0` the consumed prefix is empty, and the runs
under the all-zero stream and the distinct stream `1, 2, 3, …` coincide. -/
theorem C9_deterministic_replay_witness :
    (∀ i, i < (runSA fFst (0, 0) sZero 0).idx → sZero i = sLin i) ∧
      runSA fFst (0, 0) sZero 0 = runSA fFst (0, 0) sLin 0 := by
  have h : ∀ i, i < (runSA fFst (0, 0) sZero 0).idx → sZero i = sLin i := by
    intro i hi
    exact absurd hi (Nat.not_lt_zero i)
  exact ⟨h, C9_deterministic_replay.2 fFst (0, 0) 0 sZero sLin h⟩
